import Mathlib

/-!
# Verification of the `useForm` form-controller hook

Shallow embedding of the form controller from `src/` (the TypeScript
`useForm` implementation): JavaScript objects become association lists,
the React state cells become an explicit `FormState` record, and the
promise chains of the handlers become total functions that also report
which caller-supplied functions (`validate`, `onSubmit`) were invoked
and with which arguments.  A caller-supplied function may return a
value, return a deferred result that later resolves or rejects, or
throw synchronously; `JsOutcome` distinguishes those three behaviours.
-/

namespace FormHooks

/-- A JavaScript value as the controller manipulates it: field values are
strings, numbers (modelled as rationals), booleans, or `undefined`. -/
inductive JsValue : Type
  | str (s : String)
  | num (q : Rat)
  | bool (b : Bool)
  | undef
deriving DecidableEq, Repr

/-- A JavaScript object with string keys, as an insertion-ordered
association list (JS objects keep insertion order for string keys). -/
abbrev Obj (α : Type) : Type := List (String × α)

/-- `Object.keys`. -/
def keys (m : Obj α) : List String := m.map Prod.fst

/-- Property lookup, first matching key. -/
def getKey (m : Obj α) (k : String) : Option α :=
  match m with
  | [] => none
  | (k', v) :: rest => if k' = k then some v else getKey rest k

/-- `{ ...m, [k]: v }`: if `k` is already a key its value is replaced in
place (insertion order kept), otherwise `(k, v)` is appended. -/
def setKey (m : Obj α) (k : String) (v : α) : Obj α :=
  if (keys m).contains k then
    m.map (fun p => if p.1 = k then (k, v) else p)
  else
    m ++ [(k, v)]

/-- Rest-destructuring `const { [k]: _, ...rest } = m`: drop key `k`. -/
def removeKey (m : Obj α) (k : String) : Obj α :=
  m.filter (fun p => !(p.1 == k))

/-- JS property access `m[k]`, yielding `undefined` when absent. -/
def jsIndex (m : Obj JsValue) (k : String) : JsValue :=
  (getKey m k).getD JsValue.undef

/-- `pat` occurs somewhere in `s` (the semantics of a literal-only regex
test such as `/checkbox/.test(s)`). -/
def strContains (s pat : String) : Bool :=
  s.toList.tails.any (fun t => pat.toList.isPrefixOf t)

/-- `/number|range/.test(type)`. -/
def testNumberRange (type : String) : Bool :=
  strContains type "number" || strContains type "range"

/-- `/checkbox/.test(type)`. -/
def testCheckbox (type : String) : Bool :=
  strContains type "checkbox"

/-- The structural shape of `event.target` that the controller reads:
`{ name, type, value, checked }`. -/
structure FieldDescriptor where
  name : String
  type : String
  value : String
  checked : Bool
deriving DecidableEq, Repr

/-- Decimal digits to a natural number. -/
def digitsToNat (ds : List Char) : Nat :=
  ds.foldl (fun a c => 10 * a + (c.toNat - 48)) 0

/-- Model of the JavaScript `parseFloat` builtin on its decimal fragment:
optional leading whitespace and sign, integer digits, optional fractional
digits, optional decimal exponent, trailing garbage ignored; `none` where
JS yields `NaN` (no digit could be consumed).  `Infinity` literals are
outside the model. -/
def parseFloat (s : String) : Option Rat :=
  let cs := s.toList.dropWhile (fun c => c = ' ' || c = '\t' || c = '\n' || c = '\r')
  let sgn : Int := match cs with
    | '-' :: _ => -1
    | _ => 1
  let cs := match cs with
    | '-' :: rest => rest
    | '+' :: rest => rest
    | _ => cs
  let ds1 := cs.takeWhile Char.isDigit
  let cs1 := cs.drop ds1.length
  let ds2 := match cs1 with
    | '.' :: rest => rest.takeWhile Char.isDigit
    | _ => []
  let cs2 := match cs1 with
    | '.' :: rest => rest.drop ds2.length
    | _ => cs1
  if ds1.isEmpty && ds2.isEmpty then none
  else
    let mantNum : Int := sgn * (digitsToNat (ds1 ++ ds2) : Int)
    let mantDen : Nat := 10 ^ ds2.length
    let expNeg : Bool := match cs2 with
      | 'e' :: '-' :: _ => true
      | 'E' :: '-' :: _ => true
      | _ => false
    let eds : List Char := match cs2 with
      | 'e' :: '-' :: r => r.takeWhile Char.isDigit
      | 'E' :: '-' :: r => r.takeWhile Char.isDigit
      | 'e' :: '+' :: r => r.takeWhile Char.isDigit
      | 'E' :: '+' :: r => r.takeWhile Char.isDigit
      | 'e' :: r => r.takeWhile Char.isDigit
      | 'E' :: r => r.takeWhile Char.isDigit
      | _ => []
    let emag := digitsToNat eds
    some (if expNeg then mkRat mantNum (mantDen * 10 ^ emag)
          else mkRat (mantNum * 10 ^ emag) mantDen)

/-- The controller's `value(event)` normalization: number/range inputs are
parsed as floats (`NaN` becomes the empty string), checkboxes yield their
`checked` boolean, everything else yields the `value` string verbatim. -/
def value (t : FieldDescriptor) : JsValue :=
  if testNumberRange t.type then
    match parseFloat t.value with
    | none => JsValue.str ""
    | some q => JsValue.num q
  else if testCheckbox t.type then
    JsValue.bool t.checked
  else
    JsValue.str t.value

/-- The five state cells of one `useForm` instance. -/
structure FormState where
  errors : Obj String
  values : Obj JsValue
  touched : Obj Bool
  isSubmitting : Bool
  submitCount : Nat
deriving DecidableEq, Repr

/-- State at the first activation: `errors = {}`, `values = initialValues`,
`touched = {}`, `isSubmitting = false`, `submitCount = 0`. -/
def initialFormState (initialValues : Obj JsValue) : FormState :=
  ⟨[], initialValues, [], false, 0⟩

/-- How one call of a caller-supplied JS function behaves: it may throw
synchronously, or produce a result that (possibly after a deferral)
resolves to a value, or produce a deferred result that rejects. -/
inductive JsOutcome (ε α : Type) : Type
  | thrown (e : ε)
  | resolved (a : α)
  | rejected (e : ε)
deriving DecidableEq, Repr

/-- `shouldValidate(touchedFields)`: every key of `initialValues` occurs in
`touchedFields` (`initialFields.every(f => touchedFields.indexOf(f) > -1)`). -/
def shouldValidate (initialValues : Obj JsValue) (touchedFields : List String) : Bool :=
  (keys initialValues).all (fun f => touchedFields.contains f)

/-- Result of `handleChange`/`handleBlur`: the state once every commit
scheduled by the handler (and by a resolving `handleValidate` chain) has
been applied, together with the list of arguments `validate` was invoked
with (empty when no revalidation was triggered). -/
structure HandlerOutcome (ε : Type) where
  state : FormState
  validateCalls : List (Obj JsValue)
deriving DecidableEq, Repr

/-- `handleChange(event)`: overwrites the named key of `values` with the
normalized event value; when `validateOnChange` holds and `shouldValidate`
passes on the current touched keys, runs `handleValidate(nextValues)` — the
freshly computed snapshot — whose resolution commits the returned errors
(a throwing/rejecting `validate` leaves `errors` unchanged). -/
def handleChange (validate : Obj JsValue → JsOutcome ε (Obj String))
    (initialValues : Obj JsValue) (validateOnChange : Bool)
    (event : FieldDescriptor) (s : FormState) : HandlerOutcome ε :=
  let nextValues := setKey s.values event.name (value event)
  let s1 : FormState := { s with values := nextValues }
  if validateOnChange && shouldValidate initialValues (keys s.touched) then
    match validate nextValues with
    | JsOutcome.resolved errs => ⟨{ s1 with errors := errs }, [nextValues]⟩
    | _ => ⟨s1, [nextValues]⟩
  else
    ⟨s1, []⟩

/-- `handleBlur(event)`: sets the named key of `touched` to `true`; when
`validateOnBlur` holds and `shouldValidate` passes on the previous touched
keys extended with this field, runs `handleValidate()` against the current
`values` (a throwing/rejecting `validate` leaves `errors` unchanged). -/
def handleBlur (validate : Obj JsValue → JsOutcome ε (Obj String))
    (initialValues : Obj JsValue) (validateOnBlur : Bool)
    (event : FieldDescriptor) (s : FormState) : HandlerOutcome ε :=
  let s1 : FormState := { s with touched := setKey s.touched event.name true }
  if validateOnBlur && shouldValidate initialValues (keys s.touched ++ [event.name]) then
    match validate s.values with
    | JsOutcome.resolved errs => ⟨{ s1 with errors := errs }, [s.values]⟩
    | _ => ⟨s1, [s.values]⟩
  else
    ⟨s1, []⟩

/-- How a `handleSubmit` call is observed by its caller: either the call
itself throws synchronously (so no promise is returned at all — this
happens when `validate` throws before `Promise.resolve` can wrap it), or
it returns a promise that eventually settles with success or an error. -/
inductive SubmitResult (ε : Type) : Type
  | syncThrow (e : ε)
  | settled (r : Except ε Unit)
deriving Repr

/-- Everything one `handleSubmit` call produces: `pending` is the state
after the synchronous prologue (the state observable while the promise
chain is in flight), `final` the state once the chain has settled,
`result` what the caller sees, and `onSubmitCalls` the list of arguments
`onSubmit` was invoked with. -/
structure SubmitOutcome (ε : Type) where
  pending : FormState
  final : FormState
  result : SubmitResult ε
  onSubmitCalls : List (Obj JsValue)
deriving Repr

/-- `handleSubmit(event)`: synchronously sets `isSubmitting`, increments
`submitCount`, marks every key of `values` and of `initialValues` touched;
then resolves `validate(values)`, commits its errors, invokes
`onSubmit(values)` exactly when the error mapping has zero keys, clears
`isSubmitting` when the chain settles, and rejects the returned promise
with the first failure.  A synchronously throwing `validate` escapes the
chain before any `.then`/`.catch` is attached. -/
def handleSubmit (validate : Obj JsValue → JsOutcome ε (Obj String))
    (onSubmit : Obj JsValue → JsOutcome ε Unit)
    (initialValues : Obj JsValue) (s : FormState) : SubmitOutcome ε :=
  let fields := keys s.values ++ keys initialValues
  let touched1 := fields.foldl (fun acc k => setKey acc k true) []
  let p : FormState :=
    { s with isSubmitting := true, submitCount := s.submitCount + 1, touched := touched1 }
  match validate s.values with
  | JsOutcome.thrown e => ⟨p, p, SubmitResult.syncThrow e, []⟩
  | JsOutcome.rejected e =>
      ⟨p, { p with isSubmitting := false }, SubmitResult.settled (Except.error e), []⟩
  | JsOutcome.resolved errs =>
      let s2 : FormState := { p with errors := errs }
      if (keys errs).length = 0 then
        match onSubmit s.values with
        | JsOutcome.resolved _ =>
            ⟨p, { s2 with isSubmitting := false }, SubmitResult.settled (Except.ok ()), [s.values]⟩
        | JsOutcome.thrown e =>
            ⟨p, { s2 with isSubmitting := false }, SubmitResult.settled (Except.error e), [s.values]⟩
        | JsOutcome.rejected e =>
            ⟨p, { s2 with isSubmitting := false }, SubmitResult.settled (Except.error e), [s.values]⟩
      else
        ⟨p, { s2 with isSubmitting := false }, SubmitResult.settled (Except.ok ()), []⟩

/-- `resetValue(value, shouldResetTouched = false)`: drops the field from
`errors`, restores its `values` entry from `initialValues`, and drops it
from `touched` exactly when requested. -/
def resetValue (initialValues : Obj JsValue) (v : String) (shouldResetTouched : Bool)
    (s : FormState) : FormState :=
  let nextErrors := removeKey s.errors v
  let nextValues := setKey s.values v (jsIndex initialValues v)
  let s1 : FormState := { s with errors := nextErrors, values := nextValues }
  if shouldResetTouched then { s1 with touched := removeKey s.touched v } else s1

/-- `resetForm()`: clears `errors` and `touched`, restores `values` to
`initialValues`, clears `isSubmitting`, zeroes `submitCount`. -/
def resetForm (initialValues : Obj JsValue) : FormState :=
  ⟨[], initialValues, [], false, 0⟩

/-- React's dependency comparison for an effect (`areHookInputsEqual`,
elementwise `Object.is`, a changed length counts as changed); dependency
elements are drawn from an arbitrary type `δ` with decidable identity. -/
def depsChanged [DecidableEq δ] (prev next : List δ) : Bool :=
  (prev.length != next.length) || (List.zip prev next).any (fun p => !(p.1 = p.2 : Bool))

/-- Bookkeeping of the reinitialization watcher: the `initialRender` ref
and the dependency list recorded by the host at the previous activation
(`none` before the first activation). -/
structure WatcherState (δ : Type) where
  initialRender : Bool
  prev : Option (List δ)
deriving DecidableEq, Repr

/-- Watcher state at mount: `initialRender = true`, no recorded deps. -/
def initWatcher (δ : Type) : WatcherState δ :=
  ⟨true, none⟩

/-- One activation of the reinitialization watcher: the host runs the
effect on the first activation and whenever the dependency list changed;
the effect body resets the form unless this is the initial render, then
clears the `initialRender` ref.  Returns the new watcher bookkeeping, the
resulting form state, and whether a reset ran. -/
def activateWatcher [DecidableEq δ] (initialValues : Obj JsValue)
    (w : WatcherState δ) (deps : List δ) (s : FormState) :
    WatcherState δ × FormState × Bool :=
  let run : Bool := match w.prev with
    | none => true
    | some p => depsChanged p deps
  if run then
    if w.initialRender then
      (⟨false, some deps⟩, s, false)
    else
      (⟨false, some deps⟩, resetForm initialValues, true)
  else
    (⟨w.initialRender, some deps⟩, s, false)

/-- A whole render history: fold `activateWatcher` over the successive
dependency lists, starting at mount, collecting the per-activation reset
flags. -/
def runActivations [DecidableEq δ] (initialValues : Obj JsValue)
    (w : WatcherState δ) (s : FormState) :
    List (List δ) → FormState × List Bool
  | [] => (s, [])
  | d :: rest =>
      let (w', s', flag) := activateWatcher initialValues w d s
      let (sEnd, flags) := runActivations initialValues w' s' rest
      (sEnd, flag :: flags)

/-- `noDependencies`, the default dependency-extraction output. -/
def noDependencies (δ : Type) : List δ := []

end FormHooks

/-!
## Basic lemmas about the object operations
-/
namespace FormHooks

theorem getKey_eq_none_iff (m : Obj α) (k : String) :
    getKey m k = none ↔ k ∉ keys m := by
  induction m with
  | nil => simp [getKey, keys]
  | cons hd tl ih =>
    rcases hd with ⟨a, b⟩
    by_cases h : a = k
    · subst h
      simp [getKey, keys]
    · simp [getKey, keys, h, ih, Ne.symm h]

theorem getKey_append_of_none (m l : Obj α) (k : String)
    (h : getKey m k = none) : getKey (m ++ l) k = getKey l k := by
  induction m with
  | nil => rfl
  | cons hd tl ih =>
    rcases hd with ⟨a, b⟩
    by_cases hh : a = k
    · simp [getKey, hh] at h
    · simp [getKey, hh] at h ⊢
      exact ih h

theorem getKey_map_replace_self (m : Obj α) (k : String) (v : α) :
    getKey (m.map (fun p => if p.1 = k then (k, v) else p)) k
      = (getKey m k).map (fun _ => v) := by
  induction m with
  | nil => rfl
  | cons hd tl ih =>
    rcases hd with ⟨a, b⟩
    simp only [List.map_cons]
    by_cases h : a = k
    · rw [if_pos h]
      simp [getKey, h]
    · rw [if_neg h]
      simp [getKey, h, ih]

theorem getKey_map_replace_ne (m : Obj α) (k k' : String) (v : α)
    (h : k' ≠ k) :
    getKey (m.map (fun p => if p.1 = k then (k, v) else p)) k' = getKey m k' := by
  induction m with
  | nil => rfl
  | cons hd tl ih =>
    rcases hd with ⟨a, b⟩
    simp only [List.map_cons]
    by_cases hhd : a = k
    · rw [if_pos hhd]
      have hne : k ≠ k' := fun hc => h hc.symm
      have hane : a ≠ k' := by rw [hhd]; exact hne
      simp [getKey, hne, hane, ih]
    · rw [if_neg hhd]
      by_cases hk' : a = k'
      · simp [getKey, hk']
      · simp [getKey, hk', ih]

theorem getKey_isSome_of_mem (m : Obj α) (k : String)
    (h : k ∈ keys m) : ∃ v, getKey m k = some v := by
  induction m with
  | nil => simp [keys] at h
  | cons hd tl ih =>
    rcases hd with ⟨a, b⟩
    by_cases hh : a = k
    · exact ⟨b, by simp [getKey, hh]⟩
    · simp [keys, Ne.symm hh] at h
      simpa [getKey, hh] using ih (by simpa [keys] using h)

theorem getKey_setKey_self (m : Obj α) (k : String) (v : α) :
    getKey (setKey m k v) k = some v := by
  unfold setKey
  by_cases hmem : k ∈ keys m
  · rw [if_pos (by simpa [List.contains] using hmem)]
    obtain ⟨w, hw⟩ := getKey_isSome_of_mem m k hmem
    simp [getKey_map_replace_self, hw]
  · rw [if_neg (by simpa [List.contains] using hmem)]
    rw [getKey_append_of_none _ _ _ ((getKey_eq_none_iff m k).2 hmem)]
    simp [getKey]

theorem getKey_append_single_ne (m : Obj α) (k k' : String) (v : α)
    (h : k' ≠ k) : getKey (m ++ [(k, v)]) k' = getKey m k' := by
  induction m with
  | nil =>
    simp [getKey]
    exact fun hc => h hc.symm
  | cons hd tl ih =>
    rcases hd with ⟨a, b⟩
    by_cases hh : a = k'
    · simp [getKey, hh]
    · simp [getKey, hh, ih]

theorem getKey_setKey_ne (m : Obj α) (k k' : String) (v : α)
    (h : k' ≠ k) : getKey (setKey m k v) k' = getKey m k' := by
  unfold setKey
  by_cases hmem : k ∈ keys m
  · rw [if_pos (by simpa [List.contains] using hmem)]
    exact getKey_map_replace_ne m k k' v h
  · rw [if_neg (by simpa [List.contains] using hmem)]
    exact getKey_append_single_ne m k k' v h

theorem getKey_removeKey_self (m : Obj α) (k : String) :
    getKey (removeKey m k) k = none := by
  induction m with
  | nil => rfl
  | cons hd tl ih =>
    rcases hd with ⟨a, b⟩
    by_cases h : a = k
    · simpa [removeKey, h] using ih
    · simpa [removeKey, getKey, h] using ih

theorem getKey_removeKey_ne (m : Obj α) (k k' : String)
    (h : k' ≠ k) : getKey (removeKey m k) k' = getKey m k' := by
  induction m with
  | nil => rfl
  | cons hd tl ih =>
    rcases hd with ⟨a, b⟩
    by_cases hh : a = k
    · have hne : k ≠ k' := fun hc => h hc.symm
      simpa [removeKey, getKey, hh, hne] using ih
    · by_cases hk' : a = k'
      · subst hk'
        simp [removeKey, List.filter_cons, hh, getKey]
      · simpa [removeKey, getKey, hh, hk'] using ih

theorem shouldValidate_iff (initialValues : Obj JsValue) (tf : List String) :
    shouldValidate initialValues tf = true ↔ ∀ f ∈ keys initialValues, f ∈ tf := by
  simp [shouldValidate, List.all_eq_true, List.contains]

end FormHooks
namespace FormHooks

/-!
## Claim theorems: field-value extraction
-/

/-- C4: for every field descriptor, a type matching "number" or "range"
yields `parseFloat(value)` — or the empty string when parsing fails, never
`NaN` — else a type matching "checkbox" yields the `checked` boolean, and
any other type yields the `value` string verbatim; in particular a numeric
input with value "50" commits the number 50, and with value "" commits the
empty string. -/
theorem value_normalization (t : FieldDescriptor) :
    (testNumberRange t.type = true →
      value t = (match parseFloat t.value with
        | none => JsValue.str ""
        | some q => JsValue.num q)) ∧
    (testNumberRange t.type = false → testCheckbox t.type = true →
      value t = JsValue.bool t.checked) ∧
    (testNumberRange t.type = false → testCheckbox t.type = false →
      value t = JsValue.str t.value) ∧
    ((t.type = "number" ∨ t.type = "range") →
      (t.value = "50" → value t = JsValue.num 50) ∧
      (t.value = "" → value t = JsValue.str "")) ∧
    (t.type = "checkbox" → value t = JsValue.bool t.checked)
    := by
  refine ⟨?_, ?_, ?_, ?_, ?_⟩
  · intro h
    simp [value, h]
  · intro h1 h2
    simp [value, h1, h2]
  · intro h1 h2
    simp [value, h1, h2]
  · rintro (h | h) <;>
      refine ⟨fun hv => ?_, fun hv => ?_⟩ <;>
      · have hnr : testNumberRange t.type = true := by rw [h]; decide
        simp [value, hnr, hv]
        decide
  · intro h
    have hnr : testNumberRange t.type = false := by rw [h]; decide
    have hcb : testCheckbox t.type = true := by rw [h]; decide
    simp [value, hnr, hcb]

/-- C4 witness: the branch facts evaluated at concrete descriptors. -/
theorem value_normalization_witness :
    value ⟨"age", "number", "50", false⟩ = JsValue.num 50 ∧
    value ⟨"age", "number", "", false⟩ = JsValue.str "" ∧
    value ⟨"ok", "checkbox", "yes", true⟩ = JsValue.bool true := by
  refine ⟨?_, ?_, ?_⟩
  · exact ((value_normalization ⟨"age", "number", "50", false⟩).2.2.2.1 (Or.inl rfl)).1 rfl
  · exact ((value_normalization ⟨"age", "number", "", false⟩).2.2.2.1 (Or.inl rfl)).2 rfl
  · exact (value_normalization ⟨"ok", "checkbox", "yes", true⟩).2.2.2.2 rfl

/-- C10 counterexample: the type "rangecheckbox" contains "checkbox" as a
substring, yet the extracted value is not the checked boolean — the
number/range branch matches first and wins. -/
theorem value_checkbox_substring_cex :
    strContains "rangecheckbox" "checkbox" = true ∧
    value ⟨"x", "rangecheckbox", "abc", true⟩ = JsValue.str "" ∧
    JsValue.str "" ≠ JsValue.bool true := by
  decide

/-- C10 (amended): branch selection is by substring regex matching, not
exact type equality — any type containing "number" or "range" anywhere
selects the parseFloat path, and any type containing "checkbox" while
containing neither "number" nor "range" selects the checked-boolean
path. -/
theorem value_substring_branch_selection (t : FieldDescriptor) :
    ((strContains t.type "number" || strContains t.type "range") = true →
      value t = (match parseFloat t.value with
        | none => JsValue.str ""
        | some q => JsValue.num q)) ∧
    ((strContains t.type "number" || strContains t.type "range") = false →
      strContains t.type "checkbox" = true →
      value t = JsValue.bool t.checked) := by
  constructor
  · intro h
    simp [value, testNumberRange, h]
  · intro h1 h2
    simp [value, testNumberRange, testCheckbox, h1, h2]

/-- C10 witness: the type "strange" (which contains "range" but is neither
"number" nor "range") takes the numeric path, and "mycheckbox" takes the
checked path. -/
theorem value_substring_branch_selection_witness :
    value ⟨"x", "strange", "50", false⟩ = JsValue.num 50 ∧
    value ⟨"x", "mycheckbox", "abc", true⟩ = JsValue.bool true ∧
    "strange" ≠ "number" ∧ "strange" ≠ "range" := by
  refine ⟨?_, ?_, by decide, by decide⟩
  · have h := (value_substring_branch_selection ⟨"x", "strange", "50", false⟩).1 (by decide)
    rw [h]
    decide
  · exact (value_substring_branch_selection ⟨"x", "mycheckbox", "abc", true⟩).2
      (by decide) (by decide)

end FormHooks
namespace FormHooks

/-!
## Claim theorems: change, blur and per-field reset
-/

theorem handleChange_values_eq (validate : Obj JsValue → JsOutcome ε (Obj String))
    (initialValues : Obj JsValue) (validateOnChange : Bool)
    (event : FieldDescriptor) (s : FormState) :
    (handleChange validate initialValues validateOnChange event s).state.values
      = setKey s.values event.name (value event) := by
  rcases hv : validate (setKey s.values event.name (value event)) with e | errs | e <;>
    simp only [handleChange, hv] <;> split <;> rfl

theorem handleChange_calls_eq (validate : Obj JsValue → JsOutcome ε (Obj String))
    (initialValues : Obj JsValue) (validateOnChange : Bool)
    (event : FieldDescriptor) (s : FormState) :
    (handleChange validate initialValues validateOnChange event s).validateCalls
      = if validateOnChange && shouldValidate initialValues (keys s.touched)
        then [setKey s.values event.name (value event)]
        else [] := by
  rcases hv : validate (setKey s.values event.name (value event)) with e | errs | e <;>
    simp only [handleChange, hv] <;> split <;> rfl

theorem handleChange_touched_eq (validate : Obj JsValue → JsOutcome ε (Obj String))
    (initialValues : Obj JsValue) (validateOnChange : Bool)
    (event : FieldDescriptor) (s : FormState) :
    (handleChange validate initialValues validateOnChange event s).state.touched
      = s.touched := by
  rcases hv : validate (setKey s.values event.name (value event)) with e | errs | e <;>
    simp only [handleChange, hv] <;> split <;> rfl

/-- C5: `handleChange` commits a new Values mapping equal to the previous
one with the single key named by the event overwritten by the normalized
event value; every other key keeps its previous value. -/
theorem handleChange_single_key_overwrite
    (validate : Obj JsValue → JsOutcome ε (Obj String))
    (initialValues : Obj JsValue) (validateOnChange : Bool)
    (event : FieldDescriptor) (s : FormState) :
    getKey (handleChange validate initialValues validateOnChange event s).state.values
        event.name = some (value event) ∧
    ∀ k, k ≠ event.name →
      getKey (handleChange validate initialValues validateOnChange event s).state.values k
        = getKey s.values k := by
  rw [handleChange_values_eq]
  exact ⟨getKey_setKey_self _ _ _, fun k hk => getKey_setKey_ne _ _ _ _ hk⟩

/-- C5 witness: a concrete change event overwrites exactly its own key. -/
theorem handleChange_single_key_overwrite_witness :
    getKey (handleChange (ε := Unit) (fun _ => JsOutcome.resolved [])
        [("a", JsValue.str "x")] true ⟨"a", "text", "y", false⟩
        (initialFormState [("a", JsValue.str "x"), ("b", JsValue.num 1)])).state.values
      "a" = some (JsValue.str "y") ∧
    getKey (handleChange (ε := Unit) (fun _ => JsOutcome.resolved [])
        [("a", JsValue.str "x")] true ⟨"a", "text", "y", false⟩
        (initialFormState [("a", JsValue.str "x"), ("b", JsValue.num 1)])).state.values
      "b" = some (JsValue.num 1) := by
  have h := handleChange_single_key_overwrite (ε := Unit) (fun _ => JsOutcome.resolved [])
    [("a", JsValue.str "x")] true ⟨"a", "text", "y", false⟩
    (initialFormState [("a", JsValue.str "x"), ("b", JsValue.num 1)])
  constructor
  · rw [h.1]
    decide
  · rw [h.2 "b" (by decide)]
    decide

/-- C6: `handleChange` invokes `validate` if and only if `validateOnChange`
is enabled and every key of the initial-values mapping is already a key of
the touched mapping (evaluated before anything is marked touched — change
events never touch), and the invocation receives the freshly computed
values snapshot including this change's new value. -/
theorem handleChange_revalidation_policy
    (validate : Obj JsValue → JsOutcome ε (Obj String))
    (initialValues : Obj JsValue) (validateOnChange : Bool)
    (event : FieldDescriptor) (s : FormState) :
    ((handleChange validate initialValues validateOnChange event s).validateCalls
      = if validateOnChange && shouldValidate initialValues (keys s.touched)
        then [setKey s.values event.name (value event)]
        else []) ∧
    ((handleChange validate initialValues validateOnChange event s).state.touched
      = s.touched) ∧
    (shouldValidate initialValues (keys s.touched) = true ↔
      ∀ f ∈ keys initialValues, f ∈ keys s.touched) := by
  exact ⟨handleChange_calls_eq _ _ _ _ _, handleChange_touched_eq _ _ _ _ _,
    shouldValidate_iff _ _⟩

/-- C6 witness: with all initial keys touched the revalidation runs on the
new snapshot; with an untouched initial key it does not run. -/
theorem handleChange_revalidation_policy_witness :
    (handleChange (ε := Unit) (fun _ => JsOutcome.resolved [])
        [("a", JsValue.str "x")] true ⟨"a", "text", "y", false⟩
        ⟨[], [("a", JsValue.str "x")], [("a", true)], false, 0⟩).validateCalls
      = [[("a", JsValue.str "y")]] ∧
    (handleChange (ε := Unit) (fun _ => JsOutcome.resolved [])
        [("a", JsValue.str "x")] true ⟨"a", "text", "y", false⟩
        (initialFormState [("a", JsValue.str "x")])).validateCalls = [] := by
  constructor
  · rw [(handleChange_revalidation_policy (ε := Unit) (fun _ => JsOutcome.resolved [])
      [("a", JsValue.str "x")] true ⟨"a", "text", "y", false⟩
      ⟨[], [("a", JsValue.str "x")], [("a", true)], false, 0⟩).1]
    decide
  · rw [(handleChange_revalidation_policy (ε := Unit) (fun _ => JsOutcome.resolved [])
      [("a", JsValue.str "x")] true ⟨"a", "text", "y", false⟩
      (initialFormState [("a", JsValue.str "x")])).1]
    decide

theorem handleBlur_touched_eq (validate : Obj JsValue → JsOutcome ε (Obj String))
    (initialValues : Obj JsValue) (validateOnBlur : Bool)
    (event : FieldDescriptor) (s : FormState) :
    (handleBlur validate initialValues validateOnBlur event s).state.touched
      = setKey s.touched event.name true := by
  rcases hv : validate s.values with e | errs | e <;>
    simp only [handleBlur, hv] <;> split <;> rfl

theorem handleBlur_calls_eq (validate : Obj JsValue → JsOutcome ε (Obj String))
    (initialValues : Obj JsValue) (validateOnBlur : Bool)
    (event : FieldDescriptor) (s : FormState) :
    (handleBlur validate initialValues validateOnBlur event s).validateCalls
      = if validateOnBlur && shouldValidate initialValues (keys s.touched ++ [event.name])
        then [s.values]
        else [] := by
  rcases hv : validate s.values with e | errs | e <;>
    simp only [handleBlur, hv] <;> split <;> rfl

/-- C7: `handleBlur` commits a new Touched mapping with the event's field
set `true` (others unchanged) and invokes `validate` on the current values
if and only if `validateOnBlur` is enabled and every initial-values key is
among the previously touched keys together with this field; with
`validateOnBlur = false` a blur never invokes `validate`. -/
theorem handleBlur_touched_and_revalidation
    (validate : Obj JsValue → JsOutcome ε (Obj String))
    (initialValues : Obj JsValue) (validateOnBlur : Bool)
    (event : FieldDescriptor) (s : FormState) :
    getKey (handleBlur validate initialValues validateOnBlur event s).state.touched
        event.name = some true ∧
    (∀ k, k ≠ event.name →
      getKey (handleBlur validate initialValues validateOnBlur event s).state.touched k
        = getKey s.touched k) ∧
    ((handleBlur validate initialValues validateOnBlur event s).validateCalls
      = if validateOnBlur && shouldValidate initialValues (keys s.touched ++ [event.name])
        then [s.values]
        else []) ∧
    (shouldValidate initialValues (keys s.touched ++ [event.name]) = true ↔
      ∀ f ∈ keys initialValues, f ∈ keys s.touched ++ [event.name]) ∧
    (validateOnBlur = false →
      (handleBlur validate initialValues validateOnBlur event s).validateCalls = []) := by
  refine ⟨?_, ?_, handleBlur_calls_eq _ _ _ _ _, shouldValidate_iff _ _, ?_⟩
  · rw [handleBlur_touched_eq]
    exact getKey_setKey_self _ _ _
  · intro k hk
    rw [handleBlur_touched_eq]
    exact getKey_setKey_ne _ _ _ _ hk
  · intro hb
    subst hb
    rw [handleBlur_calls_eq]
    simp

/-- C7 witness: blurring the last untouched initial field triggers one
validation of the current values; with `validateOnBlur = false` it does
not. -/
theorem handleBlur_touched_and_revalidation_witness :
    getKey (handleBlur (ε := Unit) (fun _ => JsOutcome.resolved [])
        [("a", JsValue.str "x")] true ⟨"a", "text", "y", false⟩
        (initialFormState [("a", JsValue.str "x")])).state.touched "a" = some true ∧
    (handleBlur (ε := Unit) (fun _ => JsOutcome.resolved [])
        [("a", JsValue.str "x")] true ⟨"a", "text", "y", false⟩
        (initialFormState [("a", JsValue.str "x")])).validateCalls
      = [[("a", JsValue.str "x")]] ∧
    (handleBlur (ε := Unit) (fun _ => JsOutcome.resolved [])
        [("a", JsValue.str "x")] false ⟨"a", "text", "y", false⟩
        (initialFormState [("a", JsValue.str "x")])).validateCalls = [] := by
  have h := handleBlur_touched_and_revalidation (ε := Unit) (fun _ => JsOutcome.resolved [])
    [("a", JsValue.str "x")] true ⟨"a", "text", "y", false⟩
    (initialFormState [("a", JsValue.str "x")])
  refine ⟨h.1, ?_, ?_⟩
  · rw [h.2.2.1]
    decide
  · exact (handleBlur_touched_and_revalidation (ε := Unit) (fun _ => JsOutcome.resolved [])
      [("a", JsValue.str "x")] false ⟨"a", "text", "y", false⟩
      (initialFormState [("a", JsValue.str "x")])).2.2.2.2 rfl

theorem resetValue_values_eq (initialValues : Obj JsValue) (f : String)
    (b : Bool) (s : FormState) :
    (resetValue initialValues f b s).values = setKey s.values f (jsIndex initialValues f) := by
  cases b <;> rfl

theorem resetValue_errors_eq (initialValues : Obj JsValue) (f : String)
    (b : Bool) (s : FormState) :
    (resetValue initialValues f b s).errors = removeKey s.errors f := by
  cases b <;> rfl

theorem resetValue_touched_true_eq (initialValues : Obj JsValue) (f : String)
    (s : FormState) :
    (resetValue initialValues f true s).touched = removeKey s.touched f := rfl

theorem resetValue_touched_false_eq (initialValues : Obj JsValue) (f : String)
    (s : FormState) :
    (resetValue initialValues f false s).touched = s.touched := rfl

theorem resetValue_submitting_eq (initialValues : Obj JsValue) (f : String)
    (b : Bool) (s : FormState) :
    (resetValue initialValues f b s).isSubmitting = s.isSubmitting ∧
    (resetValue initialValues f b s).submitCount = s.submitCount := by
  cases b <;> exact ⟨rfl, rfl⟩

/-- C8: `resetValue(f, shouldResetTouched)` restores the field's Values
entry from the initial values, removes its Errors entry, removes its
Touched entry exactly when requested, and leaves every other field's
Values/Errors/Touched entries as well as `isSubmitting` and `submitCount`
unchanged. -/
theorem resetValue_frame (initialValues : Obj JsValue) (f : String)
    (shouldResetTouched : Bool) (s : FormState) :
    getKey (resetValue initialValues f shouldResetTouched s).values f
      = some (jsIndex initialValues f) ∧
    getKey (resetValue initialValues f shouldResetTouched s).errors f = none ∧
    (shouldResetTouched = true →
      getKey (resetValue initialValues f shouldResetTouched s).touched f = none) ∧
    (shouldResetTouched = false →
      (resetValue initialValues f shouldResetTouched s).touched = s.touched) ∧
    (∀ k, k ≠ f →
      getKey (resetValue initialValues f shouldResetTouched s).values k
          = getKey s.values k ∧
      getKey (resetValue initialValues f shouldResetTouched s).errors k
          = getKey s.errors k ∧
      getKey (resetValue initialValues f shouldResetTouched s).touched k
          = getKey s.touched k) ∧
    (resetValue initialValues f shouldResetTouched s).isSubmitting = s.isSubmitting ∧
    (resetValue initialValues f shouldResetTouched s).submitCount = s.submitCount := by
  refine ⟨?_, ?_, ?_, ?_, ?_, resetValue_submitting_eq _ _ _ _⟩
  · rw [resetValue_values_eq]
    exact getKey_setKey_self _ _ _
  · rw [resetValue_errors_eq]
    exact getKey_removeKey_self _ _
  · intro hb
    subst hb
    rw [resetValue_touched_true_eq]
    exact getKey_removeKey_self _ _
  · intro hb
    subst hb
    exact resetValue_touched_false_eq _ _ _
  · intro k hk
    refine ⟨?_, ?_, ?_⟩
    · rw [resetValue_values_eq]
      exact getKey_setKey_ne _ _ _ _ hk
    · rw [resetValue_errors_eq]
      exact getKey_removeKey_ne _ _ _ hk
    · cases shouldResetTouched
      · rw [resetValue_touched_false_eq]
      · rw [resetValue_touched_true_eq]
        exact getKey_removeKey_ne _ _ _ hk

/-- C8 witness: resetting "first" with touched reset restores its initial
value and removes its errors and touched entries, leaving "last" alone. -/
theorem resetValue_frame_witness :
    getKey (resetValue [("first", JsValue.str "John"), ("last", JsValue.str "Doe")]
        "first" true
        ⟨[("first", "err"), ("last", "err2")],
         [("first", JsValue.str "Joe"), ("last", JsValue.str "D")],
         [("first", true), ("last", true)], false, 2⟩).values "first"
      = some (JsValue.str "John") ∧
    getKey (resetValue [("first", JsValue.str "John"), ("last", JsValue.str "Doe")]
        "first" true
        ⟨[("first", "err"), ("last", "err2")],
         [("first", JsValue.str "Joe"), ("last", JsValue.str "D")],
         [("first", true), ("last", true)], false, 2⟩).errors "first" = none ∧
    getKey (resetValue [("first", JsValue.str "John"), ("last", JsValue.str "Doe")]
        "first" true
        ⟨[("first", "err"), ("last", "err2")],
         [("first", JsValue.str "Joe"), ("last", JsValue.str "D")],
         [("first", true), ("last", true)], false, 2⟩).touched "first" = none ∧
    getKey (resetValue [("first", JsValue.str "John"), ("last", JsValue.str "Doe")]
        "first" true
        ⟨[("first", "err"), ("last", "err2")],
         [("first", JsValue.str "Joe"), ("last", JsValue.str "D")],
         [("first", true), ("last", true)], false, 2⟩).values "last"
      = some (JsValue.str "D") ∧
    (resetValue [("first", JsValue.str "John"), ("last", JsValue.str "Doe")]
        "first" true
        ⟨[("first", "err"), ("last", "err2")],
         [("first", JsValue.str "Joe"), ("last", JsValue.str "D")],
         [("first", true), ("last", true)], false, 2⟩).submitCount = 2 := by
  have h := resetValue_frame [("first", JsValue.str "John"), ("last", JsValue.str "Doe")]
    "first" true
    ⟨[("first", "err"), ("last", "err2")],
     [("first", JsValue.str "Joe"), ("last", JsValue.str "D")],
     [("first", true), ("last", true)], false, 2⟩
  refine ⟨?_, h.2.1, h.2.2.1 rfl, ?_, ?_⟩
  · rw [h.1]
    decide
  · rw [(h.2.2.2.2.1 "last" (by decide)).1]
    decide
  · rw [h.2.2.2.2.2.2]

end FormHooks
namespace FormHooks

/-!
## Claim theorems: submission
-/

/-- C1: when `validate(currentValues)` resolves to an error mapping with
zero keys, `handleSubmit` invokes `onSubmit` exactly once with the current
values and `isSubmitting` is true while the chain is pending and false
once it settles (whatever `onSubmit` does); when the resolved mapping is
non-empty, `onSubmit` is not invoked. -/
theorem handleSubmit_empty_errors_invokes_onSubmit
    (validate : Obj JsValue → JsOutcome ε (Obj String))
    (onSubmit : Obj JsValue → JsOutcome ε Unit)
    (initialValues : Obj JsValue) (s : FormState) (errs : Obj String)
    (hres : validate s.values = JsOutcome.resolved errs) :
    ((keys errs).length = 0 →
      (handleSubmit validate onSubmit initialValues s).onSubmitCalls = [s.values] ∧
      (handleSubmit validate onSubmit initialValues s).pending.isSubmitting = true ∧
      (handleSubmit validate onSubmit initialValues s).final.isSubmitting = false) ∧
    ((keys errs).length ≠ 0 →
      (handleSubmit validate onSubmit initialValues s).onSubmitCalls = []) := by
  constructor
  · intro h0
    rcases ho : onSubmit s.values with e | a | e <;>
      simp [handleSubmit, hres, ho, h0]
  · intro hne
    simp [handleSubmit, hres, hne]

/-- C1 witness: a passing validation invokes `onSubmit` once with the
current values; a failing one does not. -/
theorem handleSubmit_empty_errors_invokes_onSubmit_witness :
    (handleSubmit (ε := Unit) (fun _ => JsOutcome.resolved [])
        (fun _ => JsOutcome.resolved ()) [("first", JsValue.str "John")]
        (initialFormState [("first", JsValue.str "John")])).onSubmitCalls
      = [[("first", JsValue.str "John")]] ∧
    (handleSubmit (ε := Unit) (fun _ => JsOutcome.resolved [])
        (fun _ => JsOutcome.resolved ()) [("first", JsValue.str "John")]
        (initialFormState [("first", JsValue.str "John")])).pending.isSubmitting = true ∧
    (handleSubmit (ε := Unit) (fun _ => JsOutcome.resolved [])
        (fun _ => JsOutcome.resolved ()) [("first", JsValue.str "John")]
        (initialFormState [("first", JsValue.str "John")])).final.isSubmitting = false := by
  have h := (handleSubmit_empty_errors_invokes_onSubmit (ε := Unit)
    (fun _ => JsOutcome.resolved []) (fun _ => JsOutcome.resolved ())
    [("first", JsValue.str "John")]
    (initialFormState [("first", JsValue.str "John")]) [] rfl).1 rfl
  exact ⟨h.1, h.2.1, h.2.2⟩

/-- C2: when `validate(currentValues)` resolves to a non-empty error
mapping, `handleSubmit` commits that mapping as the new Errors state
(wholesale replacement), does not invoke `onSubmit`, increments
`submitCount` by exactly one synchronously, and `isSubmitting` is true
while pending and false after the returned promise settles (successfully). -/
theorem handleSubmit_nonempty_errors_blocks_onSubmit
    (validate : Obj JsValue → JsOutcome ε (Obj String))
    (onSubmit : Obj JsValue → JsOutcome ε Unit)
    (initialValues : Obj JsValue) (s : FormState) (errs : Obj String)
    (hres : validate s.values = JsOutcome.resolved errs)
    (hne : (keys errs).length ≠ 0) :
    (handleSubmit validate onSubmit initialValues s).final.errors = errs ∧
    (handleSubmit validate onSubmit initialValues s).onSubmitCalls = [] ∧
    (handleSubmit validate onSubmit initialValues s).pending.isSubmitting = true ∧
    (handleSubmit validate onSubmit initialValues s).pending.submitCount
      = s.submitCount + 1 ∧
    (handleSubmit validate onSubmit initialValues s).final.submitCount
      = s.submitCount + 1 ∧
    (handleSubmit validate onSubmit initialValues s).final.isSubmitting = false ∧
    (handleSubmit validate onSubmit initialValues s).result
      = SubmitResult.settled (Except.ok ()) := by
  simp [handleSubmit, hres, hne]

/-- C2 witness: a validation resolving `{first: "err"}` commits exactly
that error mapping, skips `onSubmit`, and bumps `submitCount` to 1. -/
theorem handleSubmit_nonempty_errors_blocks_onSubmit_witness :
    (handleSubmit (ε := Unit) (fun _ => JsOutcome.resolved [("first", "err")])
        (fun _ => JsOutcome.resolved ()) [("first", JsValue.str "John")]
        (initialFormState [("first", JsValue.str "John")])).final.errors
      = [("first", "err")] ∧
    (handleSubmit (ε := Unit) (fun _ => JsOutcome.resolved [("first", "err")])
        (fun _ => JsOutcome.resolved ()) [("first", JsValue.str "John")]
        (initialFormState [("first", JsValue.str "John")])).onSubmitCalls = [] ∧
    (handleSubmit (ε := Unit) (fun _ => JsOutcome.resolved [("first", "err")])
        (fun _ => JsOutcome.resolved ()) [("first", JsValue.str "John")]
        (initialFormState [("first", JsValue.str "John")])).final.submitCount = 1 ∧
    (handleSubmit (ε := Unit) (fun _ => JsOutcome.resolved [("first", "err")])
        (fun _ => JsOutcome.resolved ()) [("first", JsValue.str "John")]
        (initialFormState [("first", JsValue.str "John")])).final.isSubmitting = false := by
  have h := handleSubmit_nonempty_errors_blocks_onSubmit (ε := Unit)
    (fun _ => JsOutcome.resolved [("first", "err")]) (fun _ => JsOutcome.resolved ())
    [("first", JsValue.str "John")] (initialFormState [("first", JsValue.str "John")])
    [("first", "err")] rfl (by decide)
  exact ⟨h.1, h.2.1, h.2.2.2.2.1, h.2.2.2.2.2.1⟩

/-- C3 counterexample: a synchronously throwing `validate` escapes before
the promise chain's `.catch` is attached — `handleSubmit` itself throws,
no promise is returned, and `isSubmitting` stays `true`, contradicting the
claim that every validate failure resets `isSubmitting` to false and
rejects the returned promise. -/
theorem handleSubmit_syncThrow_cex :
    (handleSubmit (fun _ => JsOutcome.thrown "boom")
        (fun _ => JsOutcome.resolved ()) [("first", JsValue.str "John")]
        (initialFormState [("first", JsValue.str "John")])).final.isSubmitting = true ∧
    (handleSubmit (fun _ => JsOutcome.thrown "boom")
        (fun _ => JsOutcome.resolved ()) [("first", JsValue.str "John")]
        (initialFormState [("first", JsValue.str "John")])).result
      = SubmitResult.syncThrow "boom" := ⟨rfl, rfl⟩

/-- C3 (amended): when `validate` rejects, or resolves with no errors and
`onSubmit` then throws or rejects, `handleSubmit` resets `isSubmitting`
to false and the returned promise rejects with that error, with Errors
and Values exactly as committed before the failing step and Touched as
committed synchronously; but when `validate` itself throws synchronously,
the exception propagates synchronously and `isSubmitting` stays true. -/
theorem handleSubmit_failure_paths
    (validate : Obj JsValue → JsOutcome ε (Obj String))
    (onSubmit : Obj JsValue → JsOutcome ε Unit)
    (initialValues : Obj JsValue) (s : FormState) :
    (∀ e, validate s.values = JsOutcome.rejected e →
      (handleSubmit validate onSubmit initialValues s).final.isSubmitting = false ∧
      (handleSubmit validate onSubmit initialValues s).result
        = SubmitResult.settled (Except.error e) ∧
      (handleSubmit validate onSubmit initialValues s).final.errors = s.errors ∧
      (handleSubmit validate onSubmit initialValues s).final.values = s.values ∧
      (handleSubmit validate onSubmit initialValues s).final.touched
        = (handleSubmit validate onSubmit initialValues s).pending.touched) ∧
    (∀ e errs, validate s.values = JsOutcome.resolved errs → (keys errs).length = 0 →
      (onSubmit s.values = JsOutcome.thrown e ∨ onSubmit s.values = JsOutcome.rejected e) →
      (handleSubmit validate onSubmit initialValues s).final.isSubmitting = false ∧
      (handleSubmit validate onSubmit initialValues s).result
        = SubmitResult.settled (Except.error e) ∧
      (handleSubmit validate onSubmit initialValues s).final.errors = errs ∧
      (handleSubmit validate onSubmit initialValues s).final.values = s.values ∧
      (handleSubmit validate onSubmit initialValues s).final.touched
        = (handleSubmit validate onSubmit initialValues s).pending.touched) ∧
    (∀ e, validate s.values = JsOutcome.thrown e →
      (handleSubmit validate onSubmit initialValues s).result
        = SubmitResult.syncThrow e ∧
      (handleSubmit validate onSubmit initialValues s).final
        = (handleSubmit validate onSubmit initialValues s).pending ∧
      (handleSubmit validate onSubmit initialValues s).pending.isSubmitting = true) := by
  refine ⟨?_, ?_, ?_⟩
  · intro e hres
    simp [handleSubmit, hres]
  · intro e errs hres h0 ho
    rcases ho with ho | ho <;> simp [handleSubmit, hres, h0, ho]
  · intro e hres
    simp [handleSubmit, hres]

/-- C3 amended witness: a rejecting `validate` settles the promise with
the error and resets `isSubmitting`, leaving errors untouched. -/
theorem handleSubmit_failure_paths_witness :
    (handleSubmit (fun _ => JsOutcome.rejected "bad")
        (fun _ => JsOutcome.resolved ()) [("first", JsValue.str "John")]
        (initialFormState [("first", JsValue.str "John")])).final.isSubmitting = false ∧
    (handleSubmit (fun _ => JsOutcome.rejected "bad")
        (fun _ => JsOutcome.resolved ()) [("first", JsValue.str "John")]
        (initialFormState [("first", JsValue.str "John")])).result
      = SubmitResult.settled (Except.error "bad") ∧
    (handleSubmit (fun _ => JsOutcome.rejected "bad")
        (fun _ => JsOutcome.resolved ()) [("first", JsValue.str "John")]
        (initialFormState [("first", JsValue.str "John")])).final.errors = [] := by
  have h := (handleSubmit_failure_paths (fun _ => JsOutcome.rejected "bad")
    (fun _ => JsOutcome.resolved ()) [("first", JsValue.str "John")]
    (initialFormState [("first", JsValue.str "John")])).1 "bad" rfl
  exact ⟨h.1, h.2.1, h.2.2.1⟩

end FormHooks
namespace FormHooks

/-!
## Claim theorems: reinitialization watcher
-/

theorem depsChanged_iff {δ : Type} [DecidableEq δ] :
    ∀ p d : List δ, depsChanged p d = true ↔ p ≠ d := by
  intro p
  induction p with
  | nil =>
    intro d
    cases d with
    | nil => simp [depsChanged]
    | cons b d => simp [depsChanged]
  | cons a p ih =>
    intro d
    cases d with
    | nil => simp [depsChanged]
    | cons b d =>
      have h1 : depsChanged (a :: p) (b :: d)
          = ((p.length != d.length)
              || ((!(decide (a = b)))
                  || (List.zip p d).any fun q => !(decide (q.1 = q.2)))) := by
        unfold depsChanged
        simp only [List.length_cons, List.zip_cons_cons, List.any_cons]
        congr 1
        rw [Bool.eq_iff_iff]
        simp only [bne_iff_ne, ne_eq]
        omega
      have ih' : ((p.length != d.length)
          || ((List.zip p d).any fun q => !(decide (q.1 = q.2)))) = true ↔ p ≠ d := ih d
      rw [h1, Bool.or_left_comm]
      simp only [Bool.or_eq_true, Bool.not_eq_eq_eq_not, Bool.not_true,
        decide_eq_false_iff_not] at ih' ⊢
      constructor
      · rintro (hab | hrest)
        · intro hc
          injection hc with hc1 _
          exact hab hc1
        · intro hc
          injection hc with _ hc2
          exact ih'.1 hrest hc2
      · intro hne
        by_cases hab : a = b
        · subst hab
          refine Or.inr (ih'.2 fun hc => hne ?_)
          rw [hc]
        · exact Or.inl hab

theorem runActivations_nodeps_aux {δ : Type} [DecidableEq δ]
    (initialValues : Obj JsValue) :
    ∀ (n : Nat) (s : FormState),
      (runActivations initialValues ⟨false, some ([] : List δ)⟩ s
        (List.replicate n (noDependencies δ))).2 = List.replicate n false := by
  intro n
  induction n with
  | zero => intro s; rfl
  | succ m ih =>
    intro s
    simp only [List.replicate_succ, runActivations]
    rw [show activateWatcher initialValues (⟨false, some []⟩ : WatcherState δ)
      (noDependencies δ) s = (⟨false, some []⟩, s, false) from rfl]
    simp [ih s]

/-- C9: the reinitialization watcher records a baseline and never resets
on the very first activation; on every later activation it resets the form
(errors and touched cleared, values restored to the initial values,
`isSubmitting` false, `submitCount` zero) exactly when the freshly
extracted dependency list differs element-wise (shallow equality, length
included) from the previously recorded one — equivalently, when the lists
differ; and with the default empty dependency extraction no activation
ever resets. -/
theorem watcher_reset_policy {δ : Type} [DecidableEq δ] (initialValues : Obj JsValue) :
    (∀ (d : List δ) (s : FormState),
      activateWatcher initialValues (initWatcher δ) d s = (⟨false, some d⟩, s, false)) ∧
    (∀ (p d : List δ) (s : FormState),
      activateWatcher initialValues ⟨false, some p⟩ d s
        = (⟨false, some d⟩,
           if depsChanged p d then resetForm initialValues else s,
           depsChanged p d)) ∧
    (∀ p d : List δ, depsChanged p d = true ↔ p ≠ d) ∧
    ((resetForm initialValues).errors = [] ∧
      (resetForm initialValues).values = initialValues ∧
      (resetForm initialValues).touched = [] ∧
      (resetForm initialValues).isSubmitting = false ∧
      (resetForm initialValues).submitCount = 0) ∧
    (∀ (n : Nat) (s : FormState),
      (runActivations initialValues (initWatcher δ) s
        (List.replicate n (noDependencies δ))).2 = List.replicate n false) := by
  refine ⟨?_, ?_, depsChanged_iff, ⟨rfl, rfl, rfl, rfl, rfl⟩, ?_⟩
  · intro d s
    rfl
  · intro p d s
    by_cases hc : depsChanged p d = true
    · simp [activateWatcher, hc]
    · simp [activateWatcher, hc]
  · intro n s
    cases n with
    | zero => rfl
    | succ m =>
      simp only [List.replicate_succ, runActivations]
      rw [show activateWatcher initialValues (initWatcher δ)
        (noDependencies δ) s = (⟨false, some []⟩, s, false) from rfl]
      simp [runActivations_nodeps_aux initialValues m s]

/-- C9 witness: over the dependency type `Nat`, the first activation never
resets, a changed dependency resets to the initial form state, an
unchanged one does not, and three activations with no dependencies reset
nowhere. -/
theorem watcher_reset_policy_witness :
    (activateWatcher [("a", JsValue.str "x")] (initWatcher Nat) [5]
      (initialFormState [("a", JsValue.str "x")])).2.2 = false ∧
    (activateWatcher [("a", JsValue.str "x")] ⟨false, some [5]⟩ [6]
      (initialFormState [("a", JsValue.str "x")])).2.1
        = resetForm [("a", JsValue.str "x")] ∧
    (activateWatcher [("a", JsValue.str "x")] ⟨false, some [5]⟩ [5]
      ⟨[("a", "e")], [("a", JsValue.str "y")], [("a", true)], true, 7⟩).2.1
        = ⟨[("a", "e")], [("a", JsValue.str "y")], [("a", true)], true, 7⟩ ∧
    (runActivations [("a", JsValue.str "x")] (initWatcher Nat)
      (initialFormState [("a", JsValue.str "x")])
      (List.replicate 3 (noDependencies Nat))).2 = [false, false, false] := by
  have h := watcher_reset_policy (δ := Nat) [("a", JsValue.str "x")]
  refine ⟨?_, ?_, ?_, ?_⟩
  · rw [h.1 [5] (initialFormState [("a", JsValue.str "x")])]
  · rw [h.2.1 [5] [6] (initialFormState [("a", JsValue.str "x")])]
    decide
  · rw [h.2.1 [5] [5] ⟨[("a", "e")], [("a", JsValue.str "y")], [("a", true)], true, 7⟩]
    decide
  · rw [h.2.2.2.2 3 (initialFormState [("a", JsValue.str "x")])]
    decide

end FormHooks
